import Mathlib

/-!
Verification development for the whisper-flow-frontend repository.

The definitions below are shallow embeddings of the JavaScript source:

* scripts/audio.js : AudioProcessor.convertToPCM, the onaudioprocess pacing
  gate, FileAudioProcessor.resampleAudio and FileAudioProcessor.convertToPCM.
  Floating-point samples are modelled as rationals; Math.round is modelled
  as floor (x + 1/2), its mathematical definition on JavaScript numbers.
* the WebSocket module (WhisperWebSocket) : connection state, the
  exponential-backoff reconnect policy, setTimeout bookkeeping (pending
  scheduled reconnects are modelled explicitly, together with a history of
  all delays ever scheduled), and sendAudioChunk.
* the UI module and scripts/app.js : the transcript display, modelled as a
  list of lines plus the index of the tracked in-progress bubble, and
  WhisperFlowApp.handleTranscriptionMessage.
-/

/-! ### Sample conversion (scripts/audio.js, convertToPCM) -/

/-- Model of JavaScript Math.round: round half toward positive infinity. -/
def jsRound (x : ℚ) : ℤ := ⌊x + 1/2⌋

/-- Model of Math.max(-1, Math.min(1, x)) from convertToPCM. -/
def clamp (x : ℚ) : ℚ := max (-1) (min 1 x)

/-- One sample of AudioProcessor.convertToPCM and
FileAudioProcessor.convertToPCM (both bodies are identical): clamp to
[-1, 1], scale by 32767 when nonnegative and by 32768 when negative,
then Math.round. -/
def convertSample (x : ℚ) : ℤ :=
  let sample := clamp x
  if 0 ≤ sample then jsRound (sample * 32767) else jsRound (sample * 32768)

/-- convertToPCM maps convertSample over the input buffer. -/
def convertToPCM (xs : List ℚ) : List ℤ := xs.map convertSample

/-! ### Resampling (scripts/audio.js, FileAudioProcessor.resampleAudio) -/

/-- Model of the JavaScript expression audioData[index] || 0 for an integer
index: an out-of-range index reads undefined, which the disjunction turns
into 0. -/
def jsIndexOrZero (xs : List ℚ) (i : ℤ) : ℚ :=
  if 0 ≤ i then (xs[i.toNat]?).getD 0 else 0

/-- FileAudioProcessor.resampleAudio: identity at equal rates; otherwise
ratio = original/target, newLength = Math.round(length / ratio), and output
sample i reads audioData[Math.round(i * ratio)] || 0. -/
def resampleAudio (audioData : List ℚ) (originalSampleRate targetSampleRate : ℚ) :
    List ℚ :=
  if originalSampleRate = targetSampleRate then audioData
  else
    let ratio := originalSampleRate / targetSampleRate
    let newLength := (jsRound ((audioData.length : ℚ) / ratio)).toNat
    (List.range newLength).map fun (i : ℕ) =>
      jsIndexOrZero audioData (jsRound ((i : ℚ) * ratio))

/-! ### Chunk pacing (scripts/audio.js, setupAudioProcessing) -/

/-- The onaudioprocess callback of AudioProcessor.setupAudioProcessing,
restricted to its pacing decision: when recording, the chunk is forwarded
to the onAudioChunk callback exactly when now - lastChunkTime is at least
10 milliseconds, and only then is lastChunkTime updated to now. Returns
the new lastChunkTime and the forwarded chunk, if any. -/
def onaudioprocess {α : Type} (isRecording : Bool) (lastChunkTime now : ℤ)
    (chunk : α) : ℤ × Option α :=
  if !isRecording then (lastChunkTime, none)
  else if 10 ≤ now - lastChunkTime then (now, some chunk)
  else (lastChunkTime, none)

/-- Runs the pacing gate over a list of capture callbacks, each given as a
wall-clock timestamp paired with its chunk, while recording. Returns the
final lastChunkTime and the list of forwarded chunks in order. -/
def pacerRun {α : Type} : ℤ → List (ℤ × α) → ℤ × List α
  | last, [] => (last, [])
  | last, (now, c) :: rest =>
    match onaudioprocess true last now c with
    | (l1, some ch) =>
      let r := pacerRun l1 rest
      (r.1, ch :: r.2)
    | (l1, none) => pacerRun l1 rest

/-- Timestamps spaced by at least 10 milliseconds: the first callback is at
least 10 ms after the given last-forward time, and each later callback is at
least 10 ms after its predecessor. -/
def spacedBy10 {α : Type} : ℤ → List (ℤ × α) → Prop
  | _, [] => True
  | last, (t, _) :: rest => 10 ≤ t - last ∧ spacedBy10 t rest

/-! ### WebSocket transport (the WhisperWebSocket module) -/

/-- State of a WhisperWebSocket instance. hasSocket models
this.websocket being non-null. pendingReconnects lists the delays of
setTimeout reconnect callbacks that have been scheduled but have not yet
fired; scheduleLog records every delay ever passed to setTimeout by
attemptReconnect, in order, as a history variable. -/
structure WSState where
  hasSocket : Bool
  isConnected : Bool
  reconnectAttempts : ℕ
  reconnectDelay : ℕ
  pendingReconnects : List ℕ
  scheduleLog : List ℕ
  deriving DecidableEq

/-- The constructor state: no socket, not connected, zero attempts, base
delay 1000 ms, nothing scheduled. -/
def initialWS : WSState :=
  { hasSocket := false, isConnected := false, reconnectAttempts := 0,
    reconnectDelay := 1000, pendingReconnects := [], scheduleLog := [] }

/-- this.maxReconnectAttempts. -/
def maxReconnectAttempts : ℕ := 5

/-- connect(): creates a new WebSocket object. Handler effects are modelled
by the separate wsOnOpen and wsOnClose steps. -/
def wsConnect (s : WSState) : WSState := { s with hasSocket := true }

/-- The onopen handler: marks connected and resets the reconnect policy to
zero attempts and the base 1000 ms delay. -/
def wsOnOpen (s : WSState) : WSState :=
  { s with isConnected := true, reconnectAttempts := 0, reconnectDelay := 1000 }

/-- attemptReconnect(): increments reconnectAttempts, schedules a reconnect
via setTimeout with the current reconnectDelay, then doubles the delay,
capping it at 10000 ms. -/
def attemptReconnect (s : WSState) : WSState :=
  let s1 := { s with reconnectAttempts := s.reconnectAttempts + 1 }
  let s2 := { s1 with pendingReconnects := s1.pendingReconnects ++ [s1.reconnectDelay],
                      scheduleLog := s1.scheduleLog ++ [s1.reconnectDelay] }
  { s2 with reconnectDelay := min (s2.reconnectDelay * 2) 10000 }

/-- The onclose handler: marks disconnected, then calls attemptReconnect
exactly when the close code differs from 1000 and fewer than
maxReconnectAttempts attempts have been made. -/
def wsOnClose (s : WSState) (code : ℕ) : WSState :=
  let s1 := { s with isConnected := false }
  if code ≠ 1000 ∧ s1.reconnectAttempts < maxReconnectAttempts then
    attemptReconnect s1
  else s1

/-- disconnect(): closes the socket with code 1000, clears the socket
reference, marks disconnected and resets reconnectAttempts. It does not
touch any pending setTimeout callback. -/
def wsDisconnect (s : WSState) : WSState :=
  { s with hasSocket := false, isConnected := false, reconnectAttempts := 0 }

/-- A scheduled reconnect timer firing: the earliest pending setTimeout
callback runs and calls this.connect(). When nothing is pending this is a
no-op. -/
def wsTimerFire (s : WSState) : WSState :=
  match s.pendingReconnects with
  | [] => s
  | _ :: rest => wsConnect { s with pendingReconnects := rest }

/-- One observed failure cycle of the claimed backoff scenario: an abnormal
closure arrives, then the scheduled reconnect timer (if any) fires and the
resulting connection attempt is about to fail again. -/
def runAbnormalCycles (s : WSState) : List ℕ → WSState
  | [] => s
  | c :: cs => runAbnormalCycles (wsTimerFire (wsOnClose s c)) cs

/-- WebSocket.OPEN. -/
def wsOPEN : ℕ := 1

/-- sendAudioChunk(audioChunk): throws "WebSocket not connected" when
isConnected is false or the socket reference is null, sends when the
socket readyState is OPEN, and otherwise throws "WebSocket not in OPEN
state". The readyState of the underlying socket is passed separately. -/
def sendAudioChunk (s : WSState) (readyState : ℕ) : Except String Unit :=
  if !s.isConnected || !s.hasSocket then Except.error "WebSocket not connected"
  else if readyState = wsOPEN then Except.ok ()
  else Except.error "WebSocket not in OPEN state"

/-- WhisperFlowApp.handleAudioChunk: sends only when recording and the
transport reports connected; on a send error it shows an error and stops
recording. Returns whether the chunk was transmitted and whether recording
is still on afterward. -/
def handleAudioChunk (isRecording : Bool) (s : WSState) (readyState : ℕ) :
    Bool × Bool :=
  if isRecording && s.isConnected then
    match sendAudioChunk s readyState with
    | Except.ok _ => (true, isRecording)
    | Except.error _ => (false, false)
  else (false, isRecording)

/-! ### Transcript display (the UI module and scripts/app.js) -/

/-- CSS class of a transcription line: transcription-line partial or
transcription-line final. -/
inductive LineState where
  | open_
  | closed
  deriving DecidableEq

/-- One transcription-line div: its textContent and its class. -/
structure Line where
  text : String
  state : LineState
  deriving DecidableEq

/-- The transcriptionText container together with the tracked
this.partialBubble reference, modelled as the index of that div among the
children. -/
structure Display where
  lines : List Line
  bubbleIdx : Option ℕ
  deriving DecidableEq

/-- The cleared display. -/
def initDisplay : Display := { lines := [], bubbleIdx := none }

/-- Replaces the element at an index by applying f to it; out-of-range
indices leave the list unchanged. -/
def modifyIdx {α : Type} : List α → ℕ → (α → α) → List α
  | [], _, _ => []
  | a :: as, 0, f => f a :: as
  | a :: as, n + 1, f => a :: modifyIdx as n f

/-- UI.showPartialTranscription(text): when no bubble is tracked, append a
new in-progress div and track it; then set the tracked div textContent to
the given text. -/
def showPartialTranscription (d : Display) (t : String) : Display :=
  match d.bubbleIdx with
  | none =>
    { lines := d.lines ++ [{ text := t, state := LineState.open_ }],
      bubbleIdx := some d.lines.length }
  | some i =>
    { d with lines := modifyIdx d.lines i fun l => { l with text := t } }

/-- UI.finalizePartialTranscription(): when a bubble is tracked, switch its
class to final and drop the reference; otherwise do nothing. -/
def finalizePartialTranscription (d : Display) : Display :=
  match d.bubbleIdx with
  | none => d
  | some i =>
    { lines := modifyIdx d.lines i fun l => { l with state := LineState.closed },
      bubbleIdx := none }

/-- Model of JavaScript String.prototype.trim: remove leading and trailing
whitespace characters. -/
def jsTrim (s : String) : String :=
  String.mk (((s.data.dropWhile Char.isWhitespace).reverse.dropWhile
    Char.isWhitespace).reverse)

/-- An inbound transcription message, as consumed by
WhisperFlowApp.handleTranscriptionMessage: data.data.text together with
is_partial. -/
structure TranscriptEvent where
  text : String
  isOpen : Bool
  deriving DecidableEq

/-- WhisperFlowApp.handleTranscriptionMessage: trim the text; if the trimmed
text is empty do nothing; otherwise show it as the in-progress bubble and,
when the event is not marked as in progress, immediately finalize that
bubble. -/
def handleTranscriptionMessage (d : Display) (e : TranscriptEvent) : Display :=
  let t := jsTrim e.text
  if t = "" then d
  else if e.isOpen then showPartialTranscription d t
  else finalizePartialTranscription (showPartialTranscription d t)

/-- Applies a list of transcription messages in arrival order. -/
def applyEvents (d : Display) : List TranscriptEvent → Display
  | [] => d
  | e :: es => applyEvents (handleTranscriptionMessage d e) es

/-! ### Helper lemmas about the sample converter -/

theorem neg_one_le_clamp (x : ℚ) : -1 ≤ clamp x := le_max_left _ _

theorem clamp_le_one (x : ℚ) : clamp x ≤ 1 :=
  max_le (by norm_num) (min_le_left _ _)

theorem clamp_idem (x : ℚ) : clamp (clamp x) = clamp x := by
  have h1 := neg_one_le_clamp x
  have h2 := clamp_le_one x
  conv_lhs => rw [clamp]
  rw [min_eq_right h2, max_eq_right h1]

theorem convertSample_lower (x : ℚ) : -32768 ≤ convertSample x := by
  have h1 := neg_one_le_clamp x
  unfold convertSample jsRound
  by_cases h : 0 ≤ clamp x
  · simp only [h, if_true]
    apply Int.le_floor.mpr
    push_cast
    nlinarith
  · simp only [h, if_false]
    apply Int.le_floor.mpr
    push_cast
    nlinarith

theorem convertSample_upper (x : ℚ) : convertSample x ≤ 32767 := by
  have h2 := clamp_le_one x
  unfold convertSample jsRound
  by_cases h : 0 ≤ clamp x
  · simp only [h, if_true]
    have : (⌊clamp x * 32767 + 1/2⌋ : ℤ) < 32768 := by
      apply Int.floor_lt.mpr
      push_cast
      nlinarith
    omega
  · simp only [h, if_false]
    have : (⌊clamp x * 32768 + 1/2⌋ : ℤ) < 1 := by
      apply Int.floor_lt.mpr
      push_cast
      nlinarith
    omega

/-- C1: convertToPCM preserves length; every output sample comes from
clamping to [-1, 1], scaling by 32767 when nonnegative and 32768 when
negative, then rounding, and so lies in [-32768, 32767]; the samples 0, 1
and -1 convert to 0, 32767 and -32768; any input converts exactly as its
clamped value does, in particular 2 converts as 1 does. -/
theorem C1_convertToPCM_correct (xs : List ℚ) (x : ℚ) :
    (convertToPCM xs).length = xs.length ∧
    (∀ y ∈ convertToPCM xs, -32768 ≤ y ∧ y ≤ 32767) ∧
    convertSample 0 = 0 ∧
    convertSample 1 = 32767 ∧
    convertSample (-1) = -32768 ∧
    convertSample x = convertSample (clamp x) ∧
    convertSample 2 = convertSample 1 := by
  refine ⟨List.length_map _ _, ?_, ?_, ?_, ?_, ?_, ?_⟩
  · intro y hy
    obtain ⟨x', _, rfl⟩ := List.mem_map.mp hy
    exact ⟨convertSample_lower x', convertSample_upper x'⟩
  · norm_num [convertSample, clamp, jsRound]
  · norm_num [convertSample, clamp, jsRound]
  · norm_num [convertSample, clamp, jsRound]
  · conv_lhs => rw [convertSample]
    conv_rhs => rw [convertSample]
    rw [clamp_idem]
  · norm_num [convertSample, clamp, jsRound]

/-- Witness for C1 at the concrete buffer [2/3]. -/
theorem C1_convertToPCM_correct_witness :
    -32768 ≤ convertSample ((2 : ℚ)/3) ∧ convertSample ((2 : ℚ)/3) ≤ 32767 := by
  apply (C1_convertToPCM_correct [(2 : ℚ)/3] 0).2.1 (convertSample ((2 : ℚ)/3))
  simp [convertToPCM]

/-- C2: resampleAudio is the identity at equal rates; at distinct rates the
output length is round(inputLength * targetRate / sourceRate) and output
sample i reads the input at index round(i * sourceRate / targetRate), with
out-of-range reads yielding 0. -/
theorem C2_resampleAudio_correct (audioData : List ℚ) (src tgt : ℚ) :
    (src = tgt → resampleAudio audioData src tgt = audioData) ∧
    (src ≠ tgt →
      (resampleAudio audioData src tgt).length
        = (jsRound ((audioData.length : ℚ) * tgt / src)).toNat ∧
      ∀ i : ℕ, i < (resampleAudio audioData src tgt).length →
        (resampleAudio audioData src tgt)[i]?
          = some (jsIndexOrZero audioData (jsRound ((i : ℚ) * src / tgt)))) ∧
    (∀ i : ℤ, i < 0 ∨ (audioData.length : ℤ) ≤ i →
      jsIndexOrZero audioData i = 0) := by
  have hlen : ((audioData.length : ℚ)) / (src / tgt)
      = (audioData.length : ℚ) * tgt / src := div_div_eq_mul_div _ _ _
  have hidx : ∀ i : ℕ, (i : ℚ) * (src / tgt) = (i : ℚ) * src / tgt :=
    fun i => (mul_div_assoc _ _ _).symm
  refine ⟨?_, ?_, ?_⟩
  · intro h
    simp [resampleAudio, h]
  · intro h
    constructor
    · simp only [resampleAudio, if_neg h, List.length_map, List.length_range, hlen]
    · intro i hi
      simp only [resampleAudio, if_neg h, List.length_map,
        List.length_range] at hi
      simp only [resampleAudio, if_neg h, List.getElem?_map,
        List.getElem?_range hi, Option.map_some', hidx]
  · intro i hi
    rcases hi with hi | hi
    · rw [jsIndexOrZero, if_neg (by omega)]
    · rw [jsIndexOrZero, if_pos (by omega),
        List.getElem?_eq_none (by omega)]
      rfl

/-- Witness for C2: resampling [1, 2, 3, 4] from rate 4 to rate 2 halves
the length and picks every second sample. -/
theorem C2_resampleAudio_correct_witness :
    resampleAudio [1, 2, 3, 4] 7 7 = [1, 2, 3, 4] ∧
    (resampleAudio [1, 2, 3, 4] 4 2).length = (jsRound ((4 : ℚ) * 2 / 4)).toNat ∧
    (resampleAudio [1, 2, 3, 4] 4 2)[1]?
      = some (jsIndexOrZero [1, 2, 3, 4] (jsRound ((1 : ℚ) * 4 / 2))) ∧
    jsIndexOrZero [1, 2, 3, 4] 9 = 0 := by
  have h := (C2_resampleAudio_correct [1, 2, 3, 4] 4 2).2.1 (by norm_num)
  refine ⟨(C2_resampleAudio_correct [1, 2, 3, 4] 7 7).1 rfl, ?_, h.2 1 ?_,
    (C2_resampleAudio_correct [1, 2, 3, 4] 4 2).2.2 9 (by norm_num)⟩
  · have := h.1
    simpa using this
  · rw [h.1]
    norm_num [jsRound]

/-- C3: from a fresh successful connection with base delay 1000 ms and cap
10000 ms, five consecutive abnormal closures schedule reconnects with
delays exactly 1000, 2000, 4000, 8000, 10000 ms in order; every call of
attemptReconnect increments the attempt count and then doubles the delay
capped at 10000 ms; a sixth abnormal closure schedules nothing, leaving no
pending reconnect. -/
theorem C3_backoff_sequence (c1 c2 c3 c4 c5 c6 : ℕ)
    (h1 : c1 ≠ 1000) (h2 : c2 ≠ 1000) (h3 : c3 ≠ 1000)
    (h4 : c4 ≠ 1000) (h5 : c5 ≠ 1000) (h6 : c6 ≠ 1000) :
    (∀ s : WSState,
      (attemptReconnect s).reconnectAttempts = s.reconnectAttempts + 1 ∧
      (attemptReconnect s).reconnectDelay = min (s.reconnectDelay * 2) 10000) ∧
    (runAbnormalCycles (wsOnOpen (wsConnect initialWS))
        [c1, c2, c3, c4, c5]).scheduleLog = [1000, 2000, 4000, 8000, 10000] ∧
    (wsOnClose (runAbnormalCycles (wsOnOpen (wsConnect initialWS))
        [c1, c2, c3, c4, c5]) c6).scheduleLog = [1000, 2000, 4000, 8000, 10000] ∧
    (wsOnClose (runAbnormalCycles (wsOnOpen (wsConnect initialWS))
        [c1, c2, c3, c4, c5]) c6).pendingReconnects = [] := by
  refine ⟨fun s => ⟨rfl, rfl⟩, ?_, ?_, ?_⟩ <;>
    norm_num [runAbnormalCycles, wsOnClose, attemptReconnect, wsTimerFire,
      wsConnect, wsOnOpen, initialWS, maxReconnectAttempts, h1, h2, h3, h4, h5, h6]

/-- Witness for C3 with all six closures using code 1006. -/
theorem C3_backoff_sequence_witness :
    (runAbnormalCycles (wsOnOpen (wsConnect initialWS))
        [1006, 1006, 1006, 1006, 1006]).scheduleLog
      = [1000, 2000, 4000, 8000, 10000] :=
  (C3_backoff_sequence 1006 1006 1006 1006 1006 1006
    (by norm_num) (by norm_num) (by norm_num)
    (by norm_num) (by norm_num) (by norm_num)).2.1

/-- C8: an explicit disconnect, whose closure arrives with the normal code
1000, schedules no reconnect: the schedule history and the pending
reconnects are exactly what they were before; more generally a closure with
code 1000 never schedules a reconnect in any state. -/
theorem C8_disconnect_no_reconnect (s : WSState) :
    (wsOnClose (wsDisconnect s) 1000).scheduleLog = s.scheduleLog ∧
    (wsOnClose (wsDisconnect s) 1000).pendingReconnects = s.pendingReconnects ∧
    (wsOnClose s 1000).scheduleLog = s.scheduleLog ∧
    (wsOnClose s 1000).pendingReconnects = s.pendingReconnects := by
  norm_num [wsOnClose, wsDisconnect]

/-- C6 counterexample: schedule a reconnect through an abnormal closure,
then issue an explicit disconnect before the delay elapses. The scheduled
reconnect is still pending rather than invalidated, and when its timer
fires it calls connect and re-creates a socket. There is no clearTimeout
anywhere in the WebSocket module. -/
theorem C6_counterexample :
    (wsDisconnect (wsOnClose (wsOnOpen (wsConnect initialWS))
        1006)).pendingReconnects ≠ [] ∧
    (wsTimerFire (wsDisconnect (wsOnClose (wsOnOpen (wsConnect initialWS))
        1006))).hasSocket = true := by
  decide

/-- C6 amended: neither an explicit connect nor an explicit disconnect
touches a pending scheduled reconnect; a reconnect pending at an explicit
disconnect later fires and re-creates a socket. -/
theorem C6_amended_no_cancellation (s : WSState) (d : ℕ) (rest : List ℕ)
    (h : s.pendingReconnects = d :: rest) :
    (wsDisconnect s).pendingReconnects = s.pendingReconnects ∧
    (wsConnect s).pendingReconnects = s.pendingReconnects ∧
    (wsTimerFire (wsDisconnect s)).hasSocket = true ∧
    (wsTimerFire (wsDisconnect s)).pendingReconnects = rest := by
  refine ⟨rfl, rfl, ?_, ?_⟩ <;>
    simp [wsTimerFire, wsDisconnect, wsConnect, h]

/-- Witness for the amended C6 at the concrete post-closure state. -/
theorem C6_amended_no_cancellation_witness :
    (wsTimerFire (wsDisconnect (wsOnClose (wsOnOpen (wsConnect initialWS))
        1006))).hasSocket = true :=
  (C6_amended_no_cancellation
    (wsOnClose (wsOnOpen (wsConnect initialWS)) 1006) 1000 [] (by decide)).2.2.1

/-- C7: sendAudioChunk while the transport is not connected yields the
caller-visible "WebSocket not connected" error and transmits nothing; it
succeeds exactly when connected with a socket in the OPEN readyState; the
caller transmits only while recording and connected, and stops recording
when a send fails. -/
theorem C7_send_gating (s : WSState) (readyState : ℕ) (isRecording : Bool) :
    (s.isConnected = false →
      sendAudioChunk s readyState = Except.error "WebSocket not connected") ∧
    (sendAudioChunk s readyState = Except.ok () ↔
      s.isConnected = true ∧ s.hasSocket = true ∧ readyState = wsOPEN) ∧
    ((handleAudioChunk isRecording s readyState).1 = true →
      isRecording = true ∧ s.isConnected = true ∧
      sendAudioChunk s readyState = Except.ok ()) ∧
    (isRecording = true → s.isConnected = true →
      ∀ e, sendAudioChunk s readyState = Except.error e →
        (handleAudioChunk isRecording s readyState).2 = false) := by
  obtain ⟨hs, hc, ra, rd, pr, lg⟩ := s
  by_cases hr : readyState = wsOPEN <;>
    cases hc <;> cases hs <;> cases isRecording <;>
      simp [sendAudioChunk, handleAudioChunk, hr]

/-- Witness for C7: sending on the freshly constructed, never-connected
transport fails with the "WebSocket not connected" error. -/
theorem C7_send_gating_witness :
    sendAudioChunk initialWS 1 = Except.error "WebSocket not connected" :=
  (C7_send_gating initialWS 1 true).1 rfl

/-- Helper: when all callbacks are spaced by at least 10 ms, the pacing
gate forwards every frame in order. -/
theorem pacerRun_spaced {α : Type} (last : ℤ) (frames : List (ℤ × α))
    (h : spacedBy10 last frames) :
    (pacerRun last frames).2 = frames.map Prod.snd := by
  induction frames generalizing last with
  | nil => rfl
  | cons f rest ih =>
    obtain ⟨t, c⟩ := f
    obtain ⟨h1, h2⟩ := h
    simp [pacerRun, onaudioprocess, if_pos h1, ih t h2]

/-- C5: a callback while recording forwards its chunk exactly when at least
10 ms have elapsed since the last forwarded chunk; a chunk arriving earlier
leaves the gate state unchanged and the whole remaining run is as if the
callback had never happened, so the chunk is never buffered or
retransmitted; under callbacks spaced by at least 10 ms every frame is
forwarded with no loss. -/
theorem C5_pacer_gate (α : Type) (last now : ℤ) (c : α)
    (rest frames : List (ℤ × α)) :
    ((onaudioprocess true last now c).2 = some c ↔ 10 ≤ now - last) ∧
    (¬ 10 ≤ now - last →
      onaudioprocess true last now c = (last, none) ∧
      pacerRun last ((now, c) :: rest) = pacerRun last rest) ∧
    (spacedBy10 last frames →
      (pacerRun last frames).2 = frames.map Prod.snd) := by
  refine ⟨?_, ?_, pacerRun_spaced last frames⟩
  · by_cases h : 10 ≤ now - last <;> simp [onaudioprocess, h]
  · intro h
    exact ⟨by simp [onaudioprocess, h], by simp [pacerRun, onaudioprocess, h]⟩

/-- Witness for C5: a frame 5 ms after the last forward is dropped with no
effect on the rest of the run; frames at 10 ms spacing all get through. -/
theorem C5_pacer_gate_witness :
    pacerRun 0 [((5 : ℤ), (1 : ℕ)), (12, 2)] = pacerRun 0 [((12 : ℤ), (2 : ℕ))] ∧
    (pacerRun 0 [((10 : ℤ), (1 : ℕ)), (20, 2)]).2 = [1, 2] := by
  constructor
  · exact ((C5_pacer_gate ℕ 0 5 1 [((12 : ℤ), (2 : ℕ))] []).2.1 (by norm_num)).2
  · exact (C5_pacer_gate ℕ 0 10 1 [] [((10 : ℤ), (1 : ℕ)), ((20 : ℤ), (2 : ℕ))]).2.2
      (by norm_num [spacedBy10])

/-- C4: the event sequence of two in-progress updates followed by a
finalization with text "abc" leaves exactly one closed line holding "abc"
and no tracked bubble; a following in-progress "x" opens a new line and
leaves the closed line untouched. -/
theorem C4_transcript_sequence :
    (applyEvents initDisplay
        [⟨"a", true⟩, ⟨"ab", true⟩, ⟨"abc", false⟩]).lines
      = [{ text := "abc", state := LineState.closed }] ∧
    (applyEvents initDisplay
        [⟨"a", true⟩, ⟨"ab", true⟩, ⟨"abc", false⟩]).bubbleIdx = none ∧
    (handleTranscriptionMessage
        (applyEvents initDisplay [⟨"a", true⟩, ⟨"ab", true⟩, ⟨"abc", false⟩])
        ⟨"x", true⟩).lines
      = [{ text := "abc", state := LineState.closed },
         { text := "x", state := LineState.open_ }] ∧
    (handleTranscriptionMessage
        (applyEvents initDisplay [⟨"a", true⟩, ⟨"ab", true⟩, ⟨"abc", false⟩])
        ⟨"x", true⟩).bubbleIdx = some 1 := by
  decide

/-! ### Helper lemmas about the transcript display -/

theorem modifyIdx_length {α : Type} (as : List α) (i : ℕ) (f : α → α) :
    (modifyIdx as i f).length = as.length := by
  induction as generalizing i with
  | nil => rfl
  | cons a as ih =>
    cases i with
    | zero => rfl
    | succ n => simp [modifyIdx, ih]

theorem modifyIdx_getq {α : Type} (as : List α) (i j : ℕ) (f : α → α) :
    (modifyIdx as i f)[j]? = if j = i then (as[j]?).map f else as[j]? := by
  induction as generalizing i j with
  | nil => simp [modifyIdx]
  | cons a as ih =>
    cases i with
    | zero =>
      cases j with
      | zero => simp [modifyIdx]
      | succ m => simp [modifyIdx]
    | succ n =>
      cases j with
      | zero => simp [modifyIdx]
      | succ m => simpa [modifyIdx] using ih n m

/-- The structural invariant of the display: when no bubble is tracked all
lines are closed; when a bubble is tracked it is the last line, it is the
only open line, and every other line is closed. -/
@[reducible] def DisplayInv (d : Display) : Prop :=
  (d.bubbleIdx = none →
    ∀ (j : ℕ) (l : Line), d.lines[j]? = some l → l.state = LineState.closed) ∧
  (∀ i : ℕ, d.bubbleIdx = some i → i + 1 = d.lines.length ∧
    ∀ (j : ℕ) (l : Line), d.lines[j]? = some l →
      l.state = if j = i then LineState.open_ else LineState.closed)

theorem displayInv_init : DisplayInv initDisplay := by
  constructor
  · intro _ j l hj
    simp [initDisplay] at hj
  · intro i hi
    simp [initDisplay] at hi

theorem displayInv_show (d : Display) (t : String) (h : DisplayInv d) :
    DisplayInv (showPartialTranscription d t) := by
  cases hb : d.bubbleIdx with
  | none =>
    refine ⟨?_, ?_⟩
    · intro habs
      simp [showPartialTranscription, hb] at habs
    · intro i hi
      simp only [showPartialTranscription, hb] at hi ⊢
      injection hi with hi
      subst hi
      refine ⟨by simp, ?_⟩
      intro j l hj
      have hjlt : j < d.lines.length + 1 := by
        have := (List.getElem?_eq_some_iff.mp hj).1
        simpa using this
      rcases Nat.lt_or_ge j d.lines.length with hlt | hge
      · rw [List.getElem?_append_left hlt] at hj
        rw [if_neg (by omega)]
        exact h.1 hb j l hj
      · have hj' : j = d.lines.length := by omega
        subst hj'
        rw [List.getElem?_concat_length] at hj
        injection hj with hj
        subst hj
        simp
  | some i =>
    obtain ⟨hi1, hi2⟩ := h.2 i hb
    refine ⟨?_, ?_⟩
    · intro habs
      simp [showPartialTranscription, hb] at habs
    · intro i' hi'
      simp only [showPartialTranscription, hb] at hi' ⊢
      injection hi' with hi'
      subst hi'
      refine ⟨by rw [modifyIdx_length]; exact hi1, ?_⟩
      intro j l hj
      rw [modifyIdx_getq] at hj
      by_cases hji : j = i
      · rw [if_pos hji] at hj
        obtain ⟨l0, hl0, rfl⟩ := Option.map_eq_some'.mp hj
        rw [if_pos hji]
        have := hi2 j l0 hl0
        rw [if_pos hji] at this
        exact this
      · rw [if_neg hji] at hj
        have := hi2 j l hj
        rw [if_neg hji] at this
        rw [if_neg hji]
        exact this

theorem displayInv_finalize (d : Display) (h : DisplayInv d) :
    DisplayInv (finalizePartialTranscription d) := by
  cases hb : d.bubbleIdx with
  | none => simpa [finalizePartialTranscription, hb] using h
  | some i =>
    obtain ⟨_, hi2⟩ := h.2 i hb
    refine ⟨?_, ?_⟩
    · intro _ j l hj
      simp only [finalizePartialTranscription, hb] at hj
      rw [modifyIdx_getq] at hj
      by_cases hji : j = i
      · rw [if_pos hji] at hj
        obtain ⟨l0, _, rfl⟩ := Option.map_eq_some'.mp hj
        rfl
      · rw [if_neg hji] at hj
        have := hi2 j l hj
        rwa [if_neg hji] at this
    · intro i' hi'
      simp [finalizePartialTranscription, hb] at hi'

theorem displayInv_handle (d : Display) (e : TranscriptEvent)
    (h : DisplayInv d) : DisplayInv (handleTranscriptionMessage d e) := by
  unfold handleTranscriptionMessage
  by_cases ht : jsTrim e.text = ""
  · simpa [ht] using h
  · rw [if_neg ht]
    by_cases ho : e.isOpen
    · rw [if_pos ho]
      exact displayInv_show d _ h
    · rw [if_neg ho]
      exact displayInv_finalize _ (displayInv_show d _ h)

theorem displayInv_applyEvents (d : Display) (es : List TranscriptEvent)
    (h : DisplayInv d) : DisplayInv (applyEvents d es) := by
  induction es generalizing d with
  | nil => exact h
  | cons e es ih => exact ih _ (displayInv_handle d e h)

theorem show_preserves_closed (d : Display) (t : String) (j : ℕ) (l : Line)
    (h : DisplayInv d) (hj : d.lines[j]? = some l)
    (hst : l.state = LineState.closed) :
    (showPartialTranscription d t).lines[j]? = some l := by
  cases hb : d.bubbleIdx with
  | none =>
    have hlt : j < d.lines.length := (List.getElem?_eq_some_iff.mp hj).1
    simp only [showPartialTranscription, hb]
    rw [List.getElem?_append_left hlt]
    exact hj
  | some i =>
    obtain ⟨_, hi2⟩ := h.2 i hb
    have hji : j ≠ i := by
      intro habs
      have := hi2 j l hj
      rw [if_pos habs] at this
      rw [hst] at this
      exact LineState.noConfusion this
    simp only [showPartialTranscription, hb]
    rw [modifyIdx_getq, if_neg hji]
    exact hj

theorem finalize_preserves_closed (d : Display) (j : ℕ) (l : Line)
    (h : DisplayInv d) (hj : d.lines[j]? = some l)
    (hst : l.state = LineState.closed) :
    (finalizePartialTranscription d).lines[j]? = some l := by
  cases hb : d.bubbleIdx with
  | none => simpa [finalizePartialTranscription, hb] using hj
  | some i =>
    obtain ⟨_, hi2⟩ := h.2 i hb
    have hji : j ≠ i := by
      intro habs
      have := hi2 j l hj
      rw [if_pos habs] at this
      rw [hst] at this
      exact LineState.noConfusion this
    simp only [finalizePartialTranscription, hb]
    rw [modifyIdx_getq, if_neg hji]
    exact hj

theorem handle_preserves_closed (d : Display) (e : TranscriptEvent) (j : ℕ)
    (l : Line) (h : DisplayInv d) (hj : d.lines[j]? = some l)
    (hst : l.state = LineState.closed) :
    (handleTranscriptionMessage d e).lines[j]? = some l := by
  unfold handleTranscriptionMessage
  by_cases ht : jsTrim e.text = ""
  · simpa [ht] using hj
  · rw [if_neg ht]
    by_cases ho : e.isOpen
    · rw [if_pos ho]
      exact show_preserves_closed d _ j l h hj hst
    · rw [if_neg ho]
      exact finalize_preserves_closed _ j l (displayInv_show d _ h)
        (show_preserves_closed d _ j l h hj hst) hst

theorem applyEvents_preserves_closed (d : Display) (es : List TranscriptEvent)
    (j : ℕ) (l : Line) (h : DisplayInv d) (hj : d.lines[j]? = some l)
    (hst : l.state = LineState.closed) :
    (applyEvents d es).lines[j]? = some l := by
  induction es generalizing d with
  | nil => exact hj
  | cons e es ih =>
    exact ih _ (displayInv_handle d e h)
      (handle_preserves_closed d e j l h hj hst)

/-- C9: in every display state reachable from the cleared display by any
sequence of transcript events, at most one line is open (any two open
lines coincide), and a closed line is never modified by any further
events: it stays at its index with the same text and state. -/
theorem C9_display_invariant (events more : List TranscriptEvent)
    (j k : ℕ) (lj lk : Line) :
    ((applyEvents initDisplay events).lines[j]? = some lj →
      (applyEvents initDisplay events).lines[k]? = some lk →
      lj.state = LineState.open_ → lk.state = LineState.open_ → j = k) ∧
    ((applyEvents initDisplay events).lines[j]? = some lj →
      lj.state = LineState.closed →
      (applyEvents (applyEvents initDisplay events) more).lines[j]?
        = some lj) := by
  have hinv := displayInv_applyEvents initDisplay events displayInv_init
  constructor
  · intro hj hk hoj hok
    cases hb : (applyEvents initDisplay events).bubbleIdx with
    | none =>
      have := hinv.1 hb j lj hj
      rw [hoj] at this
      exact absurd this (by simp)
    | some i =>
      obtain ⟨_, hi2⟩ := hinv.2 i hb
      have h1 := hi2 j lj hj
      have h2 := hi2 k lk hk
      rw [hoj] at h1
      rw [hok] at h2
      by_cases hji : j = i
      · by_cases hki : k = i
        · omega
        · rw [if_neg hki] at h2
          exact absurd h2 (by simp)
      · rw [if_neg hji] at h1
        exact absurd h1 (by simp)
  · intro hj hst
    exact applyEvents_preserves_closed _ more j lj hinv hj hst

/-- Witness for C9: a closed line "a" survives a later in-progress event
untouched. -/
theorem C9_display_invariant_witness :
    (applyEvents (applyEvents initDisplay [⟨"a", false⟩])
        [⟨"b", true⟩]).lines[0]?
      = some { text := "a", state := LineState.closed } :=
  (C9_display_invariant [⟨"a", false⟩] [⟨"b", true⟩] 0 0
      { text := "a", state := LineState.closed }
      { text := "a", state := LineState.closed }).2 (by decide) rfl

/-- C10: handling an event stores only the trimmed text: every line of the
resulting display is either exactly the line the display already held at
that index, or a line whose text is the trimmed event text; two events
with the same flag whose texts agree after trimming produce identical
displays. -/
theorem C10_trimmed_text (d : Display) (e1 e2 : TranscriptEvent)
    (hp : e1.isOpen = e2.isOpen) (ht : jsTrim e1.text = jsTrim e2.text) :
    handleTranscriptionMessage d e1 = handleTranscriptionMessage d e2 ∧
    ∀ j : ℕ,
      (handleTranscriptionMessage d e1).lines[j]? = d.lines[j]? ∨
      ((handleTranscriptionMessage d e1).lines[j]?).map Line.text
        = some (jsTrim e1.text) := by
  constructor
  · simp only [handleTranscriptionMessage, hp, ht]
  · intro j
    unfold handleTranscriptionMessage
    by_cases h0 : jsTrim e1.text = ""
    · rw [if_pos h0]
      left
      rfl
    · rw [if_neg h0]
      by_cases ho : e1.isOpen
      · rw [if_pos ho]
        cases hb : d.bubbleIdx with
        | none =>
          simp only [showPartialTranscription, hb]
          rcases Nat.lt_trichotomy j d.lines.length with hlt | heq | hgt
          · left
            exact List.getElem?_append_left hlt
          · right
            subst heq
            rw [List.getElem?_concat_length]
            rfl
          · left
            rw [List.getElem?_eq_none (by simp; omega),
              List.getElem?_eq_none (by omega)]
        | some i =>
          simp only [showPartialTranscription, hb]
          rw [modifyIdx_getq]
          by_cases hji : j = i
          · rw [if_pos hji]
            cases hl : d.lines[j]? with
            | none =>
              left
              simp
            | some l0 =>
              right
              simp
          · rw [if_neg hji]
            left
            rfl
      · rw [if_neg ho]
        cases hb : d.bubbleIdx with
        | none =>
          simp only [showPartialTranscription, finalizePartialTranscription, hb]
          rw [modifyIdx_getq]
          rcases Nat.lt_trichotomy j d.lines.length with hlt | heq | hgt
          · rw [if_neg (by omega)]
            left
            exact List.getElem?_append_left hlt
          · subst heq
            rw [if_pos rfl, List.getElem?_concat_length]
            right
            rfl
          · rw [if_neg (by omega)]
            left
            rw [List.getElem?_eq_none (by simp; omega),
              List.getElem?_eq_none (by omega)]
        | some i =>
          simp only [showPartialTranscription, finalizePartialTranscription, hb]
          simp only [modifyIdx_getq]
          by_cases hji : j = i
          · simp only [if_pos hji]
            cases hl : d.lines[j]? with
            | none =>
              left
              simp [hl]
            | some l0 =>
              right
              simp [hl]
          · simp only [if_neg hji]
            left
            trivial

/-- Witness for C10: an event text with surrounding whitespace acts exactly
as its trimmed text. -/
theorem C10_trimmed_text_witness :
    handleTranscriptionMessage initDisplay ⟨" hi ", true⟩
      = handleTranscriptionMessage initDisplay ⟨"hi", true⟩ :=
  (C10_trimmed_text initDisplay ⟨" hi ", true⟩ ⟨"hi", true⟩ rfl (by decide)).1
